import Mathlib

/-!
Verification of the step-execution state machine in
`src/core/test-runner.ts` (class `TestRunner`).

The remote automation client (`DesktopUseClient` from the external
`desktop-use` library) is modelled as an environment `Env` of functions
returning `Except String α`: `Except.error msg` models a thrown error
whose `.message` is `msg`.  Remote calls and sleeps performed by the
runner are recorded in an effect trace (`List Effect`), so "no remote
operation is performed" and "sleeps d milliseconds" are statable.

The data-model types (`TestCase`, `TestStep`, `TestResult`,
`StepResult`) are imported by the runner from `src/models/test-case`,
a file not present in the sources; they are modelled from the spec
(section 3) and from the fields the runner code reads and writes.
JavaScript `NaN` durations are modelled as `none : Option Int`.
-/

namespace TerminatorTester

/-- Model of checking whether the char list starts with the given needle,
used to build JS substring containment. -/
def listHasPrefixCh : List Char → List Char → Bool
  | _, [] => true
  | [], _ :: _ => false
  | c :: cs, d :: ds => c == d && listHasPrefixCh cs ds

/-- Model of substring containment on char lists: the needle occurs at
some position of the haystack. -/
def listContainsSub : List Char → List Char → Bool
  | [], needle => needle.isEmpty
  | c :: cs, needle => listHasPrefixCh (c :: cs) needle || listContainsSub cs needle

/-- Model of JavaScript `hay.includes(needle)` (substring containment). -/
def jsIncludes (hay needle : String) : Bool :=
  listContainsSub hay.data needle.data

/-- Numeric value of a hexadecimal digit character, `none` otherwise. -/
def hexDigitVal (c : Char) : Option Nat :=
  if c.isDigit then some (c.toNat - 48)
  else if 'a' ≤ c && c ≤ 'f' then some (c.toNat - 87)
  else if 'A' ≤ c && c ≤ 'F' then some (c.toNat - 55)
  else none

/-- Whether `c` is a digit of the given radix (radix 10 or 16 here). -/
def isRadixDigit (radix : Nat) (c : Char) : Bool :=
  match hexDigitVal c with
  | some v => v < radix
  | none => false

/-- Value of a digit string in the given radix. -/
def digitsToNat (radix : Nat) (ds : List Char) : Nat :=
  ds.foldl (fun acc c => acc * radix + ((hexDigitVal c).getD 0)) 0

/-- Model of JavaScript `parseInt(s)` (no explicit radix): skip leading
whitespace, optional sign, optional `0x`/`0X` hex prefix, then the
longest prefix of radix digits; `none` models the `NaN` result when no
digit is found. -/
def jsParseInt (s : String) : Option Int :=
  let cs := s.data.dropWhile (fun c => c.isWhitespace)
  let signAndRest : Int × List Char :=
    match cs with
    | '-' :: rest => (-1, rest)
    | '+' :: rest => (1, rest)
    | _ => (1, cs)
  let radixAndRest : Nat × List Char :=
    match signAndRest.2 with
    | '0' :: 'x' :: rest => (16, rest)
    | '0' :: 'X' :: rest => (16, rest)
    | _ => (10, signAndRest.2)
  let ds := radixAndRest.2.takeWhile (isRadixDigit radixAndRest.1)
  if ds.isEmpty then none
  else some (signAndRest.1 * (digitsToNat radixAndRest.1 ds : Int))

/-- Model of JavaScript `s.toLowerCase()`: character-wise lower-casing
(ASCII case folding, which is all the alias comparison needs). -/
def jsToLower (s : String) : String :=
  String.mk (s.data.map Char.toLower)

/-- Model of JavaScript truthiness on an optional string field
(`!step.selector`): `undefined` and the empty string are falsy. -/
def falsyOpt : Option String → Bool
  | none => true
  | some s => s.isEmpty

/-- Modelled from the spec: status values of `TestResult` (PASS, FAIL,
ERROR) and of `StepResult` (PASS, FAIL), from the absent
`src/models/test-case` module. -/
inductive Status where
  | PASS
  | FAIL
  | ERROR
deriving DecidableEq, Repr

/-- Modelled from the spec: a TestStep of the absent
`src/models/test-case` module — description, action, optional selector,
optional value. `action` is a plain string: `executeStep` has a default
branch for unknown actions. -/
structure TestStep where
  description : String
  action : String
  selector : Option String
  value : Option String
deriving DecidableEq, Repr

/-- Modelled from the spec: a TestCase of the absent
`src/models/test-case` module — application name and ordered steps. -/
structure TestCase where
  application : String
  steps : List TestStep
deriving DecidableEq, Repr

/-- Modelled from the spec: a StepResult of the absent
`src/models/test-case` module — the step, its status, optional error. -/
structure StepResult where
  step : TestStep
  status : Status
  error : Option String
deriving DecidableEq, Repr

/-- Modelled from the spec: a TestResult of the absent
`src/models/test-case` module.  Times are `Date.getTime()` values in
milliseconds, modelled as integers. -/
structure TestResult where
  testCase : TestCase
  status : Status
  startTime : Int
  endTime : Int
  duration : Int
  steps : List StepResult
  error : Option String
deriving DecidableEq, Repr

/-- Observable effects the runner requests from the outside world: the
remote operations of the `desktop-use` client and sleeps.  A sleep
duration of `none` models a `NaN` millisecond count. -/
inductive Effect where
  | openApp : String → Effect
  | click : String → Effect
  | typeText : String → String → Effect
  | getText : String → Effect
  | isVisible : String → Effect
  | pressKey : String → String → Effect
  | sleep : Option Int → Effect
deriving DecidableEq, Repr

/-- The remote collaborator (`DesktopUseClient` and the element handles
its `locator` returns): one function per consumed remote operation,
`Except.error` modelling a thrown error. -/
structure Env where
  openApplication : String → Except String Unit
  locator : String → Except String Unit
  elemClick : String → Except String Unit
  elemTypeText : String → String → Except String Unit
  elemGetText : String → Except String String
  elemIsVisible : String → Except String Bool
  elemPressKey : String → String → Except String Unit

namespace TestRunner

/-- The executable-name normalization inside `launchApp`:
`appName.toLowerCase() === 'calculator'` maps to `'calc'`, anything
else is passed through unchanged. -/
def launchExecutable (appName : String) : String :=
  if jsToLower appName = "calculator" then "calc" else appName

/-- `launchApp`: normalize the alias, request the remote open, and on
success sleep 2000 ms; a remote error is rethrown.  The trace records
the requested open and the settle sleep. -/
def launchApp (env : Env) (appName : String) : Except String Unit × List Effect :=
  let executableName := launchExecutable appName
  match env.openApplication executableName with
  | .ok _ => (.ok (), [Effect.openApp executableName, Effect.sleep (some 2000)])
  | .error e => (.error e, [Effect.openApp executableName])

/-- `findElement`: resolves the full selector string through the remote
client's `locator`; rethrows on error. -/
def findElement (env : Env) (selector : String) : Except String Unit :=
  env.locator selector

/-- `clickElement`: locate then click; rethrows remote errors. -/
def clickElement (env : Env) (selector : String) : Except String Unit :=
  match findElement env selector with
  | .error e => .error e
  | .ok _ => env.elemClick selector

/-- `typeText`: locate then type; rethrows remote errors. -/
def typeText (env : Env) (selector : String) (text : String) : Except String Unit :=
  match findElement env selector with
  | .error e => .error e
  | .ok _ => env.elemTypeText selector text

/-- `getText`: locate then read the text payload; rethrows remote
errors. -/
def getText (env : Env) (selector : String) : Except String String :=
  match findElement env selector with
  | .error e => .error e
  | .ok _ => env.elemGetText selector

/-- `verifyElementVisible`: locate then check visibility, but any error
(from locating or from the visibility check) is swallowed and turned
into `false`. -/
def verifyElementVisible (env : Env) (selector : String) : Bool :=
  match findElement env selector with
  | .error _ => false
  | .ok _ =>
    match env.elemIsVisible selector with
    | .error _ => false
    | .ok b => b

/-- `pressKey`: locate then press the named key; rethrows remote
errors. -/
def pressKey (env : Env) (selector : String) (key : String) : Except String Unit :=
  match findElement env selector with
  | .error e => .error e
  | .ok _ => env.elemPressKey selector key

/-- `executeStep`: dispatch on `step.action` with truthiness checks of
the required fields before any remote call; returns the thrown error or
unit, paired with the trace of remote operations and sleeps
attempted. -/
def executeStep (env : Env) (step : TestStep) : Except String Unit × List Effect :=
  match step.action with
  | "click" =>
    if falsyOpt step.selector then
      (.error ("Missing selector for click action in step: " ++ step.description), [])
    else
      let sel := step.selector.getD ""
      (clickElement env sel, [Effect.click sel])
  | "type" =>
    if falsyOpt step.selector then
      (.error ("Missing selector for type action in step: " ++ step.description), [])
    else if falsyOpt step.value then
      (.error ("Missing value for type action in step: " ++ step.description), [])
    else
      let sel := step.selector.getD ""
      let v := step.value.getD ""
      (typeText env sel v, [Effect.typeText sel v])
  | "verify" =>
    if falsyOpt step.selector then
      (.error ("Missing selector for verify action in step: " ++ step.description), [])
    else if falsyOpt step.value then
      (.error ("Missing expected value for verify action in step: " ++ step.description), [])
    else
      let sel := step.selector.getD ""
      let v := step.value.getD ""
      match getText env sel with
      | .error e => (.error e, [Effect.getText sel])
      | .ok text =>
        if jsIncludes text v then
          (.ok (), [Effect.getText sel])
        else
          (.error ("Verification failed. Expected text containing \"" ++ v
              ++ "\" but got \"" ++ text ++ "\""), [Effect.getText sel])
  | "wait" =>
    let waitTime : Option Int :=
      if falsyOpt step.value then some 1000 else jsParseInt (step.value.getD "")
    (.ok (), [Effect.sleep waitTime])
  | other => (.error ("Unknown step action: " ++ other), [])

/-- The step loop of `executeTestCase`: iterate in order; on success
append a PASS StepResult; on the first failure append a FAIL StepResult
carrying the error message, produce the test-level error message, and
stop.  Returns the recorded StepResults, the test-level error (if any),
and the trace of all effects attempted. -/
def runSteps (env : Env) : List TestStep → List StepResult × Option String × List Effect
  | [] => ([], none, [])
  | step :: rest =>
    match executeStep env step with
    | (.ok _, eff) =>
      let r := runSteps env rest
      ({ step := step, status := .PASS, error := none } :: r.1, r.2.1, eff ++ r.2.2)
    | (.error msg, eff) =>
      ([{ step := step, status := .FAIL, error := some msg }],
       some ("Step failed: " ++ step.description ++ ". Error: " ++ msg),
       eff)

/-- `executeTestCase`: launch the application; if that throws, record a
whole-test ERROR and skip steps; otherwise run the step loop and record
FAIL on a first step failure, PASS otherwise.  `startTime` and
`endTime` are the two `new Date()` readings (ms); `duration` is their
difference.  Returns the TestResult and the trace of effects. -/
def executeTestCase (env : Env) (startTime endTime : Int) (testCase : TestCase) :
    TestResult × List Effect :=
  match launchApp env testCase.application with
  | (.error msg, leff) =>
    ({ testCase := testCase
       status := .ERROR
       startTime := startTime
       endTime := endTime
       duration := endTime - startTime
       steps := []
       error := some ("Test execution error: " ++ msg) }, leff)
  | (.ok _, leff) =>
    let r := runSteps env testCase.steps
    ({ testCase := testCase
       status := match r.2.1 with | some _ => .FAIL | none => .PASS
       startTime := startTime
       endTime := endTime
       duration := endTime - startTime
       steps := r.1
       error := r.2.1 }, leff ++ r.2.2)

end TestRunner

open TestRunner

/-! Concrete collaborator behaviors used to witness the theorems. -/

/-- A collaborator on which every remote operation succeeds; `getText`
returns "Hello World" and visibility checks return `true`. -/
def envOk : Env where
  openApplication := fun _ => .ok ()
  locator := fun _ => .ok ()
  elemClick := fun _ => .ok ()
  elemTypeText := fun _ _ => .ok ()
  elemGetText := fun _ => .ok "Hello World"
  elemIsVisible := fun _ => .ok true
  elemPressKey := fun _ _ => .ok ()

/-- Like `envOk` but the remote open throws "boom". -/
def envLaunchFail : Env :=
  { envOk with openApplication := fun _ => .error "boom" }

/-- Like `envOk` but clicking an element throws "no element". -/
def envClickFail : Env :=
  { envOk with elemClick := fun _ => .error "no element" }

/-- Like `envOk` but locating an element throws "locate down". -/
def envLocateFail : Env :=
  { envOk with locator := fun _ => .error "locate down" }

/-- Like `envOk` but the visibility check throws "vis down". -/
def envVisFail : Env :=
  { envOk with elemIsVisible := fun _ => .error "vis down" }

/-- A wait step (no remote interaction, always passes). -/
def stepWait : TestStep := { description := "pause", action := "wait", selector := none, value := none }

/-- A click step on a concrete selector. -/
def stepClick : TestStep := { description := "press 1", action := "click", selector := some "name:One", value := none }

/-- A step placed after the failing one, to witness that it is not
attempted. -/
def stepAfter : TestStep := { description := "press 2", action := "click", selector := some "name:Two", value := none }

/-- A concrete test case: wait, then click, then click again. -/
def tcW : TestCase := { application := "Calculator", steps := [stepWait, stepClick, stepAfter] }

/-! Helper lemmas about the step loop. -/

/-- A nonempty string stays nonempty after appending on the right. -/
theorem str_append_ne_empty (a b : String) (h : a ≠ "") : a ++ b ≠ "" := by
  intro hc
  apply h
  have hd := congrArg String.data hc
  rw [String.data_append] at hd
  exact String.ext (List.append_eq_nil.mp hd).1

/-- Unfolding `launchApp` when the remote open succeeds. -/
theorem launchApp_of_ok (env : Env) (appName : String)
    (h : env.openApplication (launchExecutable appName) = Except.ok ()) :
    launchApp env appName
      = (Except.ok (), [Effect.openApp (launchExecutable appName), Effect.sleep (some 2000)]) := by
  simp only [launchApp]
  rw [h]

/-- Unfolding `launchApp` when the remote open throws. -/
theorem launchApp_of_error (env : Env) (appName : String) (e : String)
    (h : env.openApplication (launchExecutable appName) = Except.error e) :
    launchApp env appName = (Except.error e, [Effect.openApp (launchExecutable appName)]) := by
  simp only [launchApp]
  rw [h]

/-- The step loop when every step succeeds: one PASS StepResult per
step, no test-level error, and the concatenation of all step traces. -/
theorem runSteps_all_ok (env : Env) (steps : List TestStep)
    (h : ∀ s ∈ steps, (executeStep env s).1 = Except.ok ()) :
    runSteps env steps
      = (steps.map (fun s => { step := s, status := Status.PASS, error := none }), none,
         (steps.map (fun s => (executeStep env s).2)).flatten) := by
  induction steps with
  | nil => rfl
  | cons s rest ih =>
    have hs : (executeStep env s).1 = Except.ok () := h s (by simp)
    have hrest : ∀ t ∈ rest, (executeStep env t).1 = Except.ok () :=
      fun t ht => h t (by simp [ht])
    rcases he : executeStep env s with ⟨r, eff⟩
    rw [he] at hs
    simp only [runSteps, he]
    cases r with
    | error m => exact absurd hs (by simp)
    | ok u =>
      rw [ih hrest]
      simp [he]

/-- The step loop on a list whose first failing step is `failStep`:
PASS results for the prefix, one FAIL result carrying the message, the
test-level error message, and a trace that ends with the failing
step's effects — nothing after it is attempted. -/
theorem runSteps_first_fail (env : Env) (pre : List TestStep) (failStep : TestStep)
    (post : List TestStep) (msg : String)
    (hpre : ∀ s ∈ pre, (executeStep env s).1 = Except.ok ())
    (hfail : (executeStep env failStep).1 = Except.error msg) :
    runSteps env (pre ++ failStep :: post)
      = (pre.map (fun s => { step := s, status := Status.PASS, error := none })
           ++ [{ step := failStep, status := Status.FAIL, error := some msg }],
         some ("Step failed: " ++ failStep.description ++ ". Error: " ++ msg),
         (pre.map (fun s => (executeStep env s).2)).flatten ++ (executeStep env failStep).2) := by
  induction pre with
  | nil =>
    rcases he : executeStep env failStep with ⟨r, eff⟩
    rw [he] at hfail
    simp only [List.nil_append, runSteps, he]
    cases r with
    | ok u => exact absurd hfail (by simp)
    | error m =>
      have : m = msg := by simpa using hfail
      subst this
      simp
  | cons s rest ih =>
    have hs : (executeStep env s).1 = Except.ok () := hpre s (by simp)
    have hrest : ∀ t ∈ rest, (executeStep env t).1 = Except.ok () :=
      fun t ht => hpre t (by simp [ht])
    rcases he : executeStep env s with ⟨r, eff⟩
    rw [he] at hs
    simp only [List.cons_append, runSteps, he]
    cases r with
    | error m => exact absurd hs (by simp)
    | ok u =>
      simp only [List.append_eq] at *
      rw [ih hrest]
      simp [he]

/-- The StepResults the loop records are always a prefix of the input
steps, in order: mapping back to the steps gives `take`. -/
theorem runSteps_steps_map (env : Env) (steps : List TestStep) :
    (runSteps env steps).1.map StepResult.step
      = steps.take (runSteps env steps).1.length := by
  induction steps with
  | nil => rfl
  | cons s rest ih =>
    rcases he : executeStep env s with ⟨r, eff⟩
    simp only [runSteps, he]
    cases r with
    | ok u => simpa using ih
    | error m => simp

/-- The loop records at most one StepResult per input step. -/
theorem runSteps_length_le (env : Env) (steps : List TestStep) :
    (runSteps env steps).1.length ≤ steps.length := by
  induction steps with
  | nil => simp [runSteps]
  | cons s rest ih =>
    rcases he : executeStep env s with ⟨r, eff⟩
    simp only [runSteps, he]
    cases r with
    | ok u => simpa using ih
    | error m => simp

/-- The loop's test-level error is absent or a "Step failed" message. -/
theorem runSteps_error_shape (env : Env) (steps : List TestStep) :
    (runSteps env steps).2.1 = none ∨
      ∃ d m, (runSteps env steps).2.1 = some ("Step failed: " ++ d ++ ". Error: " ++ m) := by
  induction steps with
  | nil => exact Or.inl rfl
  | cons s rest ih =>
    rcases he : executeStep env s with ⟨r, eff⟩
    simp only [runSteps, he]
    cases r with
    | ok u => simpa using ih
    | error m =>
      exact Or.inr ⟨s.description, m, rfl⟩

/-! Claim theorems. -/

/-- Claim C1: when the launch succeeds and step k (1-indexed) is the
first step whose execution fails, `executeTestCase` returns a result
whose steps list has exactly k entries — the first k-1 PASS, the k-th
FAIL with the step's error message — with overall status FAIL and the
test-level error message set, and the effect trace ends with the
failing step's effects: no step after step k is attempted. -/
theorem executeTestCase_stops_at_first_failure
    (env : Env) (startTime endTime : Int) (tc : TestCase)
    (pre : List TestStep) (failStep : TestStep) (post : List TestStep) (msg : String)
    (hsteps : tc.steps = pre ++ failStep :: post)
    (hlaunch : env.openApplication (launchExecutable tc.application) = Except.ok ())
    (hpre : ∀ s ∈ pre, (executeStep env s).1 = Except.ok ())
    (hfail : (executeStep env failStep).1 = Except.error msg) :
    (executeTestCase env startTime endTime tc).1.steps
        = pre.map (fun s => { step := s, status := Status.PASS, error := none })
            ++ [{ step := failStep, status := Status.FAIL, error := some msg }] ∧
    (executeTestCase env startTime endTime tc).1.steps.length = pre.length + 1 ∧
    (executeTestCase env startTime endTime tc).1.status = Status.FAIL ∧
    (executeTestCase env startTime endTime tc).1.error
        = some ("Step failed: " ++ failStep.description ++ ". Error: " ++ msg) ∧
    (executeTestCase env startTime endTime tc).2
        = Effect.openApp (launchExecutable tc.application) :: Effect.sleep (some 2000)
            :: ((pre.map (fun s => (executeStep env s).2)).flatten
                  ++ (executeStep env failStep).2) := by
  simp only [executeTestCase, launchApp_of_ok env tc.application hlaunch, hsteps,
    runSteps_first_fail env pre failStep post msg hpre hfail]
  simp

/-- Claim C2: when the application launch throws, `executeTestCase`
returns status ERROR with an empty steps list and a non-empty error
message — never a step FAIL. -/
theorem executeTestCase_launch_failure_is_error
    (env : Env) (startTime endTime : Int) (tc : TestCase) (msg : String)
    (hlaunch : env.openApplication (launchExecutable tc.application) = Except.error msg) :
    (executeTestCase env startTime endTime tc).1.status = Status.ERROR ∧
    (executeTestCase env startTime endTime tc).1.steps = [] ∧
    (executeTestCase env startTime endTime tc).1.error
      = some ("Test execution error: " ++ msg) ∧
    ("Test execution error: " ++ msg) ≠ "" := by
  have hne : ("Test execution error: " ++ msg) ≠ "" :=
    str_append_ne_empty "Test execution error: " msg (by decide)
  simp only [executeTestCase, launchApp_of_error env tc.application msg hlaunch]
  simp [hne]

/-- Claim C3: when the launch succeeds and every step succeeds,
`executeTestCase` returns status PASS, one PASS StepResult per step in
order, and no error message. -/
theorem executeTestCase_all_pass
    (env : Env) (startTime endTime : Int) (tc : TestCase)
    (hlaunch : env.openApplication (launchExecutable tc.application) = Except.ok ())
    (hsteps : ∀ s ∈ tc.steps, (executeStep env s).1 = Except.ok ()) :
    (executeTestCase env startTime endTime tc).1.status = Status.PASS ∧
    (executeTestCase env startTime endTime tc).1.steps.length = tc.steps.length ∧
    (executeTestCase env startTime endTime tc).1.steps
      = tc.steps.map (fun s => { step := s, status := Status.PASS, error := none }) ∧
    (executeTestCase env startTime endTime tc).1.error = none := by
  simp only [executeTestCase, launchApp_of_ok env tc.application hlaunch,
    runSteps_all_ok env tc.steps hsteps]
  simp

/-- Claim C4: `executeTestCase` is total over its error behavior: for
every collaborator behavior it returns a TestResult in which either
everything passed (status PASS, no error), or the error was captured as
status FAIL or ERROR together with a non-empty error message. -/
theorem executeTestCase_error_capture
    (env : Env) (startTime endTime : Int) (tc : TestCase) :
    ((executeTestCase env startTime endTime tc).1.status = Status.PASS ∧
        (executeTestCase env startTime endTime tc).1.error = none) ∨
    ((executeTestCase env startTime endTime tc).1.status = Status.FAIL ∧
        ∃ m, (executeTestCase env startTime endTime tc).1.error = some m ∧ m ≠ "") ∨
    ((executeTestCase env startTime endTime tc).1.status = Status.ERROR ∧
        ∃ m, (executeTestCase env startTime endTime tc).1.error = some m ∧ m ≠ "") := by
  simp only [executeTestCase]
  rcases hl : launchApp env tc.application with ⟨r, leff⟩
  cases r with
  | error m =>
    exact Or.inr (Or.inr ⟨rfl, "Test execution error: " ++ m, rfl,
      str_append_ne_empty "Test execution error: " m (by decide)⟩)
  | ok u =>
    rcases runSteps_error_shape env tc.steps with h | ⟨d, m, h⟩
    · exact Or.inl ⟨by simp [h], by simp [h]⟩
    · have hne : ("Step failed: " ++ d ++ ". Error: " ++ m) ≠ "" :=
        str_append_ne_empty ("Step failed: " ++ d ++ ". Error: ") m
          (str_append_ne_empty ("Step failed: " ++ d) ". Error: "
            (str_append_ne_empty "Step failed: " d (by decide)))
      exact Or.inr (Or.inl ⟨by simp [h], "Step failed: " ++ d ++ ". Error: " ++ m,
        by simp [h], hne⟩)

/-- Claim C5: every returned TestResult records at most as many
StepResults as there are steps, each StepResult's step is the
corresponding declared step in order (the recorded steps are the
prefix `take` of the declared steps), and the duration is exactly
endTime minus startTime. -/
theorem executeTestCase_structural_invariant
    (env : Env) (startTime endTime : Int) (tc : TestCase) :
    (executeTestCase env startTime endTime tc).1.steps.length ≤ tc.steps.length ∧
    (executeTestCase env startTime endTime tc).1.steps.map StepResult.step
      = tc.steps.take (executeTestCase env startTime endTime tc).1.steps.length ∧
    (executeTestCase env startTime endTime tc).1.duration
      = (executeTestCase env startTime endTime tc).1.endTime
        - (executeTestCase env startTime endTime tc).1.startTime := by
  simp only [executeTestCase]
  rcases hl : launchApp env tc.application with ⟨r, leff⟩
  cases r with
  | error m => simp
  | ok u =>
    exact ⟨runSteps_length_le env tc.steps, runSteps_steps_map env tc.steps, rfl⟩

/-- Witness for C1: against a collaborator whose element click throws
"no element", the test case wait-click-click fails at the second step
and records exactly two StepResults. -/
theorem executeTestCase_stops_at_first_failure_witness :
    (executeTestCase envClickFail 0 7 tcW).1.status = Status.FAIL ∧
    (executeTestCase envClickFail 0 7 tcW).1.steps.length = 2 := by
  have h := executeTestCase_stops_at_first_failure envClickFail 0 7 tcW
    [stepWait] stepClick [stepAfter] "no element" rfl rfl
    (fun s hs => by rw [List.mem_singleton.mp hs]; rfl) rfl
  exact ⟨h.2.2.1, by rw [h.2.1]; rfl⟩

/-- Witness for C2: a collaborator whose remote open throws "boom"
yields status ERROR and an empty steps list. -/
theorem executeTestCase_launch_failure_is_error_witness :
    (executeTestCase envLaunchFail 0 7 tcW).1.status = Status.ERROR ∧
    (executeTestCase envLaunchFail 0 7 tcW).1.steps = [] := by
  have h := executeTestCase_launch_failure_is_error envLaunchFail 0 7 tcW "boom" rfl
  exact ⟨h.1, h.2.1⟩

/-- Witness for C3: against the all-succeeding collaborator, the
three-step test case passes with three StepResults and no error. -/
theorem executeTestCase_all_pass_witness :
    (executeTestCase envOk 0 7 tcW).1.status = Status.PASS ∧
    (executeTestCase envOk 0 7 tcW).1.steps.length = 3 ∧
    (executeTestCase envOk 0 7 tcW).1.error = none := by
  have h := executeTestCase_all_pass envOk 0 7 tcW rfl
    (by intro s hs
        simp only [tcW, List.mem_cons, List.mem_singleton] at hs
        rcases hs with rfl | rfl | hs
        · rfl
        · rfl
        · rcases hs with rfl | hs
          · rfl
          · cases hs)
  exact ⟨h.1, by rw [h.2.1]; rfl, h.2.2.2⟩

/-- A field holding a non-empty string is truthy. -/
theorem falsyOpt_some_false (s : String) (h : s ≠ "") : falsyOpt (some s) = false := by
  cases hse : s.isEmpty
  · simp [falsyOpt, hse]
  · exact absurd ((String.isEmpty_iff s).mp hse) h

/-- `clickElement` rethrows: it errors exactly when locating or the
remote click errors, with that error. -/
theorem clickElement_error_iff (env : Env) (sel e : String) :
    clickElement env sel = Except.error e ↔
      env.locator sel = Except.error e ∨
        (env.locator sel = Except.ok () ∧ env.elemClick sel = Except.error e) := by
  unfold clickElement findElement
  cases hl : env.locator sel with
  | ok u => cases u; simp
  | error er => simp

/-- `typeText` rethrows: it errors exactly when locating or the remote
type errors, with that error. -/
theorem typeText_error_iff (env : Env) (sel text e : String) :
    typeText env sel text = Except.error e ↔
      env.locator sel = Except.error e ∨
        (env.locator sel = Except.ok () ∧ env.elemTypeText sel text = Except.error e) := by
  unfold typeText findElement
  cases hl : env.locator sel with
  | ok u => cases u; simp
  | error er => simp

/-- `getText` rethrows: it errors exactly when locating or the remote
read errors, with that error. -/
theorem getText_error_iff (env : Env) (sel e : String) :
    getText env sel = Except.error e ↔
      env.locator sel = Except.error e ∨
        (env.locator sel = Except.ok () ∧ env.elemGetText sel = Except.error e) := by
  unfold getText findElement
  cases hl : env.locator sel with
  | ok u => cases u; simp
  | error er => simp

/-- `pressKey` rethrows: it errors exactly when locating or the remote
key press errors, with that error. -/
theorem pressKey_error_iff (env : Env) (sel key e : String) :
    pressKey env sel key = Except.error e ↔
      env.locator sel = Except.error e ∨
        (env.locator sel = Except.ok () ∧ env.elemPressKey sel key = Except.error e) := by
  unfold pressKey findElement
  cases hl : env.locator sel with
  | ok u => cases u; simp
  | error er => simp

/-- `launchApp` rethrows: it errors exactly when the remote open
errors, with that error. -/
theorem launchApp_error_iff (env : Env) (appName e : String) :
    (launchApp env appName).1 = Except.error e ↔
      env.openApplication (launchExecutable appName) = Except.error e := by
  simp only [launchApp]
  cases ho : env.openApplication (launchExecutable appName) with
  | ok u => simp
  | error er => simp

/-- Claim C6: for a verify step whose selector and value are present
(truthy) and whose `getText` succeeds with `text`, the step succeeds
exactly when `text` contains the expected value as a substring, and on
mismatch it fails with the verification message naming both the
expected value and the actual text. -/
theorem executeStep_verify_substring
    (env : Env) (d sel v text : String) (hsel : sel ≠ "") (hv : v ≠ "")
    (htext : getText env sel = Except.ok text) :
    ((executeStep env
        { description := d, action := "verify", selector := some sel, value := some v }).1
      = Except.ok () ↔ jsIncludes text v = true) ∧
    (jsIncludes text v = false →
      (executeStep env
          { description := d, action := "verify", selector := some sel, value := some v }).1
        = Except.error ("Verification failed. Expected text containing \"" ++ v
            ++ "\" but got \"" ++ text ++ "\"")) := by
  have hsel2 : falsyOpt (some sel) = false := falsyOpt_some_false sel hsel
  have hv2 : falsyOpt (some v) = false := falsyOpt_some_false v hv
  refine ⟨⟨?_, ?_⟩, ?_⟩
  · intro hok
    cases hinc : jsIncludes text v
    · exfalso
      simp [executeStep, hsel2, hv2, htext, hinc] at hok
    · rfl
  · intro hinc
    simp [executeStep, hsel2, hv2, htext, hinc]
  · intro hinc
    simp [executeStep, hsel2, hv2, htext, hinc]

/-- Witness for C6: with "Hello World" on the remote display, expected
value "Hello" passes and "Goodbye" fails with the message naming
both strings. -/
theorem executeStep_verify_substring_witness :
    (executeStep envOk
        { description := "check", action := "verify", selector := some "name:display",
          value := some "Hello" }).1 = Except.ok () ∧
    (executeStep envOk
        { description := "check", action := "verify", selector := some "name:display",
          value := some "Goodbye" }).1
      = Except.error
          "Verification failed. Expected text containing \"Goodbye\" but got \"Hello World\"" := by
  have h1 := executeStep_verify_substring envOk "check" "name:display" "Hello" "Hello World"
    (by decide) (by decide) rfl
  have h2 := executeStep_verify_substring envOk "check" "name:display" "Goodbye" "Hello World"
    (by decide) (by decide) rfl
  exact ⟨h1.1.mpr rfl, h2.2 rfl⟩

/-- Claim C7: `verifyElementVisible` never throws — a locate error or a
visibility-check error yields `false`, and a successful remote check
yields the collaborator's boolean — while every other primitive
(`launchApp`, `clickElement`, `typeText`, `getText`, `pressKey`)
rethrows the remote error to the caller. -/
theorem verifyElementVisible_swallows_errors
    (env : Env) (sel text key appName e : String) (b : Bool) :
    (env.locator sel = Except.error e → verifyElementVisible env sel = false) ∧
    (env.elemIsVisible sel = Except.error e → verifyElementVisible env sel = false) ∧
    (env.locator sel = Except.ok () → env.elemIsVisible sel = Except.ok b →
      verifyElementVisible env sel = b) ∧
    ((launchApp env appName).1 = Except.error e ↔
      env.openApplication (launchExecutable appName) = Except.error e) ∧
    (clickElement env sel = Except.error e ↔
      env.locator sel = Except.error e ∨
        (env.locator sel = Except.ok () ∧ env.elemClick sel = Except.error e)) ∧
    (typeText env sel text = Except.error e ↔
      env.locator sel = Except.error e ∨
        (env.locator sel = Except.ok () ∧ env.elemTypeText sel text = Except.error e)) ∧
    (getText env sel = Except.error e ↔
      env.locator sel = Except.error e ∨
        (env.locator sel = Except.ok () ∧ env.elemGetText sel = Except.error e)) ∧
    (pressKey env sel key = Except.error e ↔
      env.locator sel = Except.error e ∨
        (env.locator sel = Except.ok () ∧ env.elemPressKey sel key = Except.error e)) := by
  refine ⟨?_, ?_, ?_, launchApp_error_iff env appName e, clickElement_error_iff env sel e,
    typeText_error_iff env sel text e, getText_error_iff env sel e,
    pressKey_error_iff env sel key e⟩
  · intro h
    unfold verifyElementVisible findElement
    rw [h]
  · intro h
    unfold verifyElementVisible findElement
    cases hl : env.locator sel with
    | error er => rfl
    | ok u => rw [h]
  · intro h1 h2
    unfold verifyElementVisible findElement
    rw [h1, h2]

/-- Witness for C7: a locate error and a visibility error both yield
`false`, a successful check yields `true`, and `clickElement` rethrows
the locate error. -/
theorem verifyElementVisible_swallows_errors_witness :
    verifyElementVisible envLocateFail "name:box" = false ∧
    verifyElementVisible envVisFail "name:box" = false ∧
    verifyElementVisible envOk "name:box" = true ∧
    clickElement envLocateFail "name:box" = Except.error "locate down" := by
  have h1 := verifyElementVisible_swallows_errors envLocateFail "name:box" "t" "k" "app"
    "locate down" true
  have h2 := verifyElementVisible_swallows_errors envVisFail "name:box" "t" "k" "app"
    "vis down" true
  have h3 := verifyElementVisible_swallows_errors envOk "name:box" "t" "k" "app" "e" true
  exact ⟨h1.1 rfl, h2.2.1 rfl, h3.2.2.1 rfl rfl, h1.2.2.2.2.1.mpr (Or.inl rfl)⟩

/-- Claim C8: a wait step never fails: its result is always ok; with no
value it sleeps 1000 ms, and with a (truthy) value it sleeps
`parseInt(value)` ms — `none`, the model of NaN, when the value does
not parse. -/
theorem executeStep_wait_always_passes (env : Env) (d : String) (selo : Option String) :
    (∀ vo : Option String,
      (executeStep env
          { description := d, action := "wait", selector := selo, value := vo }).1
        = Except.ok ()) ∧
    executeStep env { description := d, action := "wait", selector := selo, value := none }
      = (Except.ok (), [Effect.sleep (some 1000)]) ∧
    (∀ v : String, v ≠ "" →
      executeStep env { description := d, action := "wait", selector := selo, value := some v }
        = (Except.ok (), [Effect.sleep (jsParseInt v)])) := by
  refine ⟨?_, rfl, ?_⟩
  · intro vo
    cases vo <;> rfl
  · intro v hv
    simp [executeStep, falsyOpt_some_false v hv]

/-- Witness for C8: no value sleeps 1000 ms, value "50" sleeps 50 ms,
and the unparseable value "abc" yields a NaN (`none`) sleep, all with
an ok result. -/
theorem executeStep_wait_always_passes_witness :
    executeStep envOk { description := "pause", action := "wait", selector := none, value := none }
      = (Except.ok (), [Effect.sleep (some 1000)]) ∧
    executeStep envOk { description := "pause", action := "wait", selector := none, value := some "50" }
      = (Except.ok (), [Effect.sleep (some 50)]) ∧
    executeStep envOk { description := "pause", action := "wait", selector := none, value := some "abc" }
      = (Except.ok (), [Effect.sleep none]) := by
  have h := executeStep_wait_always_passes envOk "pause" none
  refine ⟨h.2.1, ?_, ?_⟩
  · rw [h.2.2 "50" (by decide)]
    rfl
  · rw [h.2.2 "abc" (by decide)]
    rfl

/-- Claim C9: field presence is checked by truthiness, so an
empty-string selector or value counts as missing: the step fails with
the corresponding validation message and performs no remote operation
(empty effect trace). -/
theorem executeStep_empty_string_fields_missing
    (env : Env) (d sel : String) (vo : Option String) (hsel : sel ≠ "") :
    executeStep env { description := d, action := "click", selector := some "", value := vo }
      = (Except.error ("Missing selector for click action in step: " ++ d), []) ∧
    executeStep env { description := d, action := "type", selector := some "", value := vo }
      = (Except.error ("Missing selector for type action in step: " ++ d), []) ∧
    executeStep env { description := d, action := "verify", selector := some "", value := vo }
      = (Except.error ("Missing selector for verify action in step: " ++ d), []) ∧
    executeStep env { description := d, action := "type", selector := some sel, value := some "" }
      = (Except.error ("Missing value for type action in step: " ++ d), []) ∧
    executeStep env { description := d, action := "verify", selector := some sel, value := some "" }
      = (Except.error ("Missing expected value for verify action in step: " ++ d), []) := by
  refine ⟨rfl, rfl, rfl, ?_, ?_⟩
  · simp [executeStep, falsyOpt, String.isEmpty_iff, hsel]
  · simp [executeStep, falsyOpt, String.isEmpty_iff, hsel]

/-- Witness for C9: an empty-string selector on click and an
empty-string value on type each fail validation with no remote
operation attempted. -/
theorem executeStep_empty_string_fields_missing_witness :
    executeStep envOk { description := "d", action := "click", selector := some "", value := none }
      = (Except.error ("Missing selector for click action in step: " ++ "d"), []) ∧
    executeStep envOk { description := "d", action := "type", selector := some "name:box", value := some "" }
      = (Except.error ("Missing value for type action in step: " ++ "d"), []) := by
  have h := executeStep_empty_string_fields_missing envOk "d" "name:box" none (by decide)
  exact ⟨h.1, h.2.2.2.1⟩

/-- Claim C10: the alias normalization in `launchApp` is
case-insensitive: any app name that lower-cases to "calculator" is
opened as "calc", and any other name is passed to the remote open
unchanged. -/
theorem launchApp_alias_case_insensitive (env : Env) (appName : String) :
    (jsToLower appName = "calculator" →
      launchExecutable appName = "calc" ∧
      (launchApp env appName).2.head? = some (Effect.openApp "calc")) ∧
    (jsToLower appName ≠ "calculator" →
      launchExecutable appName = appName ∧
      (launchApp env appName).2.head? = some (Effect.openApp appName)) := by
  constructor
  · intro h
    have hx : launchExecutable appName = "calc" := by simp [launchExecutable, h]
    refine ⟨hx, ?_⟩
    simp only [launchApp, hx]
    cases ho : env.openApplication "calc" <;> rfl
  · intro h
    have hx : launchExecutable appName = appName := by simp [launchExecutable, h]
    refine ⟨hx, ?_⟩
    simp only [launchApp, hx]
    cases ho : env.openApplication appName <;> rfl

/-- Witness for C10: "CALCULATOR" and "Calculator" are opened as
"calc"; "notepad" is passed through unchanged. -/
theorem launchApp_alias_case_insensitive_witness :
    launchExecutable "CALCULATOR" = "calc" ∧
    launchExecutable "notepad" = "notepad" ∧
    (launchApp envOk "Calculator").2.head? = some (Effect.openApp "calc") := by
  have h1 := launchApp_alias_case_insensitive envOk "CALCULATOR"
  have h2 := launchApp_alias_case_insensitive envOk "notepad"
  have h3 := launchApp_alias_case_insensitive envOk "Calculator"
  exact ⟨(h1.1 (by decide)).1, (h2.2 (by decide)).1, (h3.1 (by decide)).2⟩

end TerminatorTester
